import Mathlib

/-!
Verification of `aoc_bootstrapper` (`src/bootstrapper.py`) against its
natural-language specification.

Python strings are modelled as `List Char` (`Str`).  External collaborators
(the `requests` HTTP client, `pickle`, `tomllib`, `argparse`, the browser)
are modelled as explicit parameters or as fields of the observable system
state `Sys`:

* `Sys.files`    — the file system's files, an association list path ↦ content
                   (Python `dict` assignment/`open(..., "w")` are modelled by
                   `dictInsert`);
* `Sys.dirs`     — the set of directories (for `os.path.isdir` / `os.mkdir`);
* `Sys.requests` — the log of HTTP request URLs issued so far;
* `Sys.stderr`   — diagnostic messages written to the standard error stream
                   (progress messages written to standard output are not
                   modelled);
* `Sys.browser`  — URLs opened with `webbrowser.open`.

`exit(code)` and uncaught Python exceptions are modelled by the `.error`
side of `Except (Failure × Sys) _`: an error carries the whole observable
state at the moment the process terminates.
-/

abbrev Str := List Char

/-- Boolean "is prefix of" on character lists; `isPfx p s` is Python's
`s.startswith(p)` restricted to the uses made by the program. -/
def isPfx : Str → Str → Bool
  | [], _ => true
  | _ :: _, [] => false
  | a :: as, b :: bs => a == b && isPfx as bs

/-- Python `s.endswith(q)` (source line 147 `template_file_path.endswith(".tpl")`). -/
def endsWith (q s : Str) : Bool := isPfx q.reverse s.reverse

/-- Number of positions of `s` at which the pattern `pat` occurs (used to state
the spec's occurrence-counting properties; for the bracket-delimited tokens of
this program occurrences can never overlap, so this agrees with Python's
non-overlapping `str.count`). -/
def countOccs (pat : Str) : Str → Nat
  | [] => 0
  | c :: cs => (if isPfx pat (c :: cs) then 1 else 0) + countOccs pat cs

/-- Fuel-driven body of Python `str.replace`: scan left to right, replace each
(non-overlapping) occurrence of `pat` by `val`.  The fuel is always called
with at least the length of the scanned string, so the `0, s` row is never
reached on those calls. -/
def pyReplaceFuel (pat val : Str) : Nat → Str → Str
  | _, [] => []
  | 0, s => s
  | fuel + 1, c :: cs =>
    if isPfx pat (c :: cs) ∧ pat ≠ [] then
      val ++ pyReplaceFuel pat val fuel (List.drop pat.length (c :: cs))
    else
      c :: pyReplaceFuel pat val fuel cs

/-- Python `content.replace(pat, val)` (source line 143), for the non-empty
patterns `"[[KEY]]"` the program uses.  (Python's behaviour on an empty
pattern — inserting `val` at every gap — is not modelled; every pattern the
program builds is `"[[" + key + "]]"` and hence non-empty.) -/
def pyReplace (pat val s : Str) : Str := pyReplaceFuel pat val s.length s

/-! ## Data model and observable state -/

/-- The configuration record loaded from `resources/config.toml`
(source lines 75 and 111 read these two keys). -/
structure Config where
  challenge_input_directory : Str
  session_cookie : Str
  deriving DecidableEq, Repr

/-- Observable system state: files, directories, issued HTTP requests,
standard-error output and opened browser tabs. -/
structure Sys where
  files : List (Str × Str)
  dirs : List Str
  requests : List Str
  stderr : List Str
  browser : List Str
  deriving DecidableEq, Repr

/-- Python `dict` lookup on an association list (first match). -/
def dictLookup (d : List (Str × Str)) (k : Str) : Option Str :=
  match d with
  | [] => none
  | (k', v) :: rest => if k' = k then some v else dictLookup rest k

/-- Python `dict` assignment `d[k] = v`: replace in place if the key is
present (keeping its position, as Python dicts do), else append. -/
def dictInsert (d : List (Str × Str)) (k v : Str) : List (Str × Str) :=
  match d with
  | [] => [(k, v)]
  | (k', v') :: rest =>
    if k' = k then (k, v) :: rest else (k', v') :: dictInsert rest k v

/-- `os.path.exists` (source lines 83 and 180): true for a file or a directory. -/
def Sys.pathExists (s : Sys) (p : Str) : Bool :=
  (dictLookup s.files p).isSome || s.dirs.contains p

/-- `os.path.isdir` (source line 89). -/
def Sys.isDir (s : Sys) (p : Str) : Bool := s.dirs.contains p

/-- `open(p, "w"); write(c)`: create or overwrite the file at `p`. -/
def Sys.writeFile (s : Sys) (p c : Str) : Sys :=
  { s with files := dictInsert s.files p c }

/-- Append a diagnostic line to the standard error stream. -/
def pushStderr (s : Sys) (msg : Str) : Sys := { s with stderr := s.stderr ++ [msg] }

/-- The error enum of source lines 24–27 (the source's spelling is kept). -/
inductive BoostrapperError where
  | TEMPLATE_NOT_FOUND
  | BAD_AOC_REQUEST
  | INVALID_TEMPLATE_PATH
  deriving DecidableEq, Repr

/-- `BoostrapperError.value`: the process exit code used with `exit(...)`. -/
def BoostrapperError.value : BoostrapperError → Nat
  | .TEMPLATE_NOT_FOUND => 1
  | .BAD_AOC_REQUEST => 2
  | .INVALID_TEMPLATE_PATH => 3

/-- Uncaught Python exceptions that terminate the process with a traceback. -/
inductive PyExn where
  | fileNotFoundError
  | tomlDecodeError
  | unpicklingError
  | indexError
  | systemExit
  deriving DecidableEq, Repr

/-- A terminating failure: either an explicit `exit(code)` through the error
enum, or an uncaught exception. -/
inductive Failure where
  | exit (e : BoostrapperError)
  | exn (e : PyExn)
  deriving DecidableEq, Repr

/-- The process exit code of a failure.  An uncaught exception makes the
Python interpreter exit with code 1 (argparse's `SystemExit` uses 2). -/
def Failure.code : Failure → Nat
  | .exit e => e.value
  | .exn .systemExit => 2
  | .exn _ => 1

/-- Exit code of a whole run: 0 on success. -/
def runCode : Except (Failure × Sys) Sys → Nat
  | .ok _ => 0
  | .error (f, _) => f.code

/-- The observable state at the end of a run, successful or not. -/
def resultSys : Except (Failure × Sys) Sys → Sys
  | .ok s => s
  | .error (_, s) => s

/-! ## The template renderer (source `generate_starter_code`) -/

/-- Python `str(n)` for the naturals used as day/year. -/
def natStr (n : Nat) : Str := (Nat.repr n).toList

/-- `str.lower()` on the ASCII language names the program handles. -/
def lower (s : Str) : Str := s.map Char.toLower

/-- The literal placeholder token `f"[[{key}]]"` built at source line 143. -/
def tok (key : Str) : Str := '[' :: '[' :: (key ++ [']', ']'])

/-- One iteration of the substitution loop of source lines 142–143. -/
def substVar (content : Str) (kv : Str × Str) : Str :=
  pyReplace (tok kv.1) kv.2 content

/-- The whole substitution loop: Python iterates the `template_vars` dict in
insertion order, so the mapping is a list folded left to right. -/
def substitute (vars : List (Str × Str)) (content : Str) : Str :=
  vars.foldl substVar content

/-- `os.path.basename` (POSIX): everything after the last `'/'`. -/
def basename (p : Str) : Str := (p.reverse.takeWhile (fun c => c ≠ '/')).reverse

/-- The template-marking suffix checked at source line 147. -/
def tplSuffix : Str := ['.', 't', 'p', 'l']

/-- `generate_starter_code` (source lines 124–155): read the template, run the
substitution loop, derive the output path (note: the source slices the last
four characters off the *combined* `f"{target_dir}/{basename}"` string), write
and return the output path.  A missing template file raises an uncaught
`FileNotFoundError` at `open`. -/
def generate_starter_code (template_file_path target_dir : Str)
    (template_vars : List (Str × Str)) (s : Sys) :
    Except (Failure × Sys) (Str × Sys) :=
  match dictLookup s.files template_file_path with
  | none => .error (.exn .fileNotFoundError, s)
  | some template_content =>
    let content := substitute template_vars template_content
    let starter_code_file_path :=
      if endsWith tplSuffix template_file_path then
        (target_dir ++ '/' :: basename template_file_path).take
          ((target_dir ++ '/' :: basename template_file_path).length - 4)
      else
        target_dir ++ '/' :: basename template_file_path
    .ok (starter_code_file_path, s.writeFile starter_code_file_path content)

/-! ## Fetcher and orchestrator -/

def AOC_ENDPOINT : Str := "https://www.adventofcode.com".toList

def SAVED_TEMPLATES_FILE_PATH : Str := "data/templates.pkl".toList

def CONFIG_FILE_PATH : Str := "resources/config.toml".toList

/-- `f"{AOC_ENDPOINT}/{year}/day/{day}/input"` (source line 112). -/
def requestUrl (year day : Nat) : Str :=
  AOC_ENDPOINT ++ '/' :: (natStr year ++ "/day/".toList ++ natStr day ++ "/input".toList)

/-- The diagnostic written to stderr at source line 119. -/
def fetchErrorMsg (status : Nat) (request_url : Str) : Str :=
  "Error ".toList ++ natStr status ++ " while fetching ".toList ++ request_url ++
    ". Maybe your day or year is invalid, or maybe your session cookie is incorrect or has expired.".toList

/-- `get_challenge_input` (source lines 95–122).  The HTTP client is the
parameter `net`, mapping a session cookie and a URL to a status code and a
body; issuing the request appends the URL to `Sys.requests`.  A non-200
status prints the diagnostic and exits with `BAD_AOC_REQUEST`. -/
def get_challenge_input (net : Str → Str → Nat × Str) (cfg : Config)
    (day year : Nat) (s : Sys) : Except (Failure × Sys) (Str × Sys) :=
  let request_url := requestUrl year day
  let s1 := { s with requests := s.requests ++ [request_url] }
  let response := net cfg.session_cookie request_url
  if response.1 ≠ 200 then
    .error (.exit .BAD_AOC_REQUEST, pushStderr s1 (fetchErrorMsg response.1 request_url))
  else
    .ok (response.2, s1)

/-- `f"{inputs_dir_path}/{year}/day{day}.txt"` (source line 76). -/
def inputFilePath (cfg : Config) (day year : Nat) : Str :=
  cfg.challenge_input_directory ++ '/' :: (natStr year ++ "/day".toList ++ natStr day ++ ".txt".toList)

/-- `f"{inputs_dir_path}/{year}"` (source line 87). -/
def yearDirPath (cfg : Config) (year : Nat) : Str :=
  cfg.challenge_input_directory ++ '/' :: natStr year

/-- `create_input_file` (source lines 62–93).  Note the order faithfully kept
from the source: the challenge input is downloaded *first* (line 79), and only
then is the existence of the local file checked (line 83); an existing file
skips the directory creation and the write, not the fetch.  (The source's
`except ConnectionError: raise(e)` re-raise is an identity and is not
modelled separately.) -/
def create_input_file (net : Str → Str → Nat × Str) (cfg : Config)
    (day year : Nat) (s : Sys) : Except (Failure × Sys) Sys :=
  let challenge_input_file_path := inputFilePath cfg day year
  match get_challenge_input net cfg day year s with
  | .error e => .error e
  | .ok (challenge_input, s1) =>
    if s1.pathExists challenge_input_file_path then
      .ok s1
    else
      let inputs_for_year_dir_path := yearDirPath cfg year
      let s2 :=
        if s1.isDir inputs_for_year_dir_path then s1
        else { s1 with dirs := s1.dirs ++ [inputs_for_year_dir_path] }
      .ok (s2.writeFile challenge_input_file_path challenge_input)

/-- The arguments argparse builds for the `generate` mode (source lines 217–220). -/
structure GenArgs where
  day : Nat
  language : Str
  target_dir : Str
  year : Nat
  deriving DecidableEq, Repr

/-- The stderr diagnostic of source line 40. -/
def templateNotFoundMsg (language : Str) : Str :=
  "Error: The language ".toList ++ language ++
    " does not have a valid template. Add one with 'bootstrapper add'".toList

/-- `f"https://adventofcode.com/{year}/day/{day}"` (source line 58). -/
def challengePageUrl (year day : Nat) : Str :=
  "https://adventofcode.com/".toList ++ natStr year ++ "/day/".toList ++ natStr day

/-- `generate_challenge` (source lines 30–60): look the lowercased language up
in the registry (exit `TEMPLATE_NOT_FOUND` on a miss), create the input file,
render the starter code with `CHALLENGE_DAY`/`CHALLENGE_YEAR`, then open the
challenge page in the browser. -/
def generate_challenge (net : Str → Str → Nat × Str) (cfg : Config)
    (saved_templates : List (Str × Str)) (args : GenArgs) (s : Sys) :
    Except (Failure × Sys) Sys :=
  match dictLookup saved_templates (lower args.language) with
  | none => .error (.exit .TEMPLATE_NOT_FOUND, pushStderr s (templateNotFoundMsg args.language))
  | some template_path =>
    match create_input_file net cfg args.day args.year s with
    | .error e => .error e
    | .ok s1 =>
      match generate_starter_code template_path args.target_dir
          [("CHALLENGE_DAY".toList, natStr args.day),
           ("CHALLENGE_YEAR".toList, natStr args.year)] s1 with
      | .error e => .error e
      | .ok (_, s2) =>
        .ok { s2 with browser := s2.browser ++ [challengePageUrl args.year args.day] }

/-- `load_saved_templates` (source lines 157–169): a missing registry file is
caught (`FileNotFoundError`) and yields the empty dict; a file that `pickle`
(the abstract decoder `decReg`) cannot deserialize raises an uncaught
`UnpicklingError`. -/
def load_saved_templates (decReg : Str → Option (List (Str × Str))) (s : Sys) :
    Except (Failure × Sys) (List (Str × Str)) :=
  match dictLookup s.files SAVED_TEMPLATES_FILE_PATH with
  | none => .ok []
  | some content =>
    match decReg content with
    | none => .error (.exn .unpicklingError, s)
    | some saved_templates => .ok saved_templates

/-- `add_template` (source lines 171–189): validate the template path first
(exit `INVALID_TEMPLATE_PATH` if it does not exist), then insert under the
lowercased language name and persist the whole dict (`pickle.dump`, the
abstract encoder `encReg`) to the registry file. -/
def add_template (encReg : List (Str × Str) → Str)
    (saved_templates : List (Str × Str)) (language template_file : Str) (s : Sys) :
    Except (Failure × List (Str × Str) × Sys) (List (Str × Str) × Sys) :=
  if ¬ s.pathExists template_file then
    .error (.exit .INVALID_TEMPLATE_PATH, saved_templates, s)
  else
    let reg := dictInsert saved_templates (lower language) template_file
    .ok (reg, s.writeFile SAVED_TEMPLATES_FILE_PATH (encReg reg))

/-- The arguments argparse builds for the `add` mode (source lines 226–227). -/
structure AddArgs where
  language : Str
  template_file : Str
  deriving DecidableEq, Repr

/-- `main` (source lines 203–229); named `bootstrapper_main` here because Lean
reserves the name `main` for an executable entry point: load the config (uncaught exception if the
file is missing or `tomllib` cannot parse it), read `argv[1]` (uncaught
`IndexError` if absent), load the saved templates, then dispatch on the mode
string; any other mode falls through and the process ends normally.
`argparse` is abstracted by the parsers `parseGen`/`parseAdd` (a parse
failure is argparse's `SystemExit`). -/
def bootstrapper_main (net : Str → Str → Nat × Str) (decCfg : Str → Option Config)
    (decReg : Str → Option (List (Str × Str))) (encReg : List (Str × Str) → Str)
    (parseGen : List Str → Option GenArgs) (parseAdd : List Str → Option AddArgs)
    (argv : List Str) (s : Sys) : Except (Failure × Sys) Sys :=
  match dictLookup s.files CONFIG_FILE_PATH with
  | none => .error (.exn .fileNotFoundError, s)
  | some config_text =>
    match decCfg config_text with
    | none => .error (.exn .tomlDecodeError, s)
    | some config =>
      match argv.get? 1 with
      | none => .error (.exn .indexError, s)
      | some prog_mode =>
        match load_saved_templates decReg s with
        | .error e => .error e
        | .ok saved_templates =>
          if prog_mode = "generate".toList then
            match parseGen (argv.drop 2) with
            | none => .error (.exn .systemExit, s)
            | some gargs => generate_challenge net config saved_templates gargs s
          else if prog_mode = "add".toList then
            match parseAdd (argv.drop 2) with
            | none => .error (.exn .systemExit, s)
            | some aargs =>
              match add_template encReg saved_templates aargs.language aargs.template_file s with
              | .error (f, _, s') => .error (f, s')
              | .ok (_, s') => .ok s'
          else
            .ok s


/-! ## Spec-side definitions

These definitions follow the specification's words (not the source) and are
used to state refinement-style claims and side conditions. -/

/-- Modelled from the spec (§4.4 step 3): "Derive the output file name from
the base name of `template_path`: if it ends with a fixed template-suffix,
that suffix is stripped; otherwise the base name is used unchanged."  (The
source instead slices the last four characters off the combined
`f"{target_dir}/{basename}"` string; claim C4 is that the two agree.) -/
def specOutputName (template_path : Str) : Str :=
  if endsWith tplSuffix template_path then
    (basename template_path).take ((basename template_path).length - 4)
  else
    basename template_path

/-- The spec's caller-responsibility condition on placeholder keys: a key name
contains no square bracket (§4.4 step 2). -/
def noBrackets (l : Str) : Prop := '[' ∉ l ∧ ']' ∉ l

instance (l : Str) : Decidable (noBrackets l) :=
  inferInstanceAs (Decidable ('[' ∉ l ∧ ']' ∉ l))

/-- Side conditions under which the substitution passes of the renderer
commute (claim C9): keys are pairwise distinct and bracket-free, and every
value is non-empty, bracket-free, and shares no character with any key. -/
def goodVars (vars : List (Str × Str)) : Prop :=
  vars.Pairwise (fun a b => a.1 ≠ b.1) ∧
  ∀ kv ∈ vars, noBrackets kv.1 ∧ kv.2 ≠ [] ∧ noBrackets kv.2 ∧
    ∀ kv2 ∈ vars, ∀ c ∈ kv.2, c ∉ kv2.1

instance (vars : List (Str × Str)) : Decidable (goodVars vars) :=
  inferInstanceAs (Decidable (vars.Pairwise (fun (a b : Str × Str) => a.1 ≠ b.1) ∧
    ∀ kv ∈ vars, noBrackets kv.1 ∧ kv.2 ≠ [] ∧ noBrackets kv.2 ∧
      ∀ kv2 ∈ vars, ∀ c ∈ kv.2, c ∉ kv2.1))

/-! ## Supporting lemmas -/

theorem isPfx_nil (s : Str) : isPfx [] s = true := by cases s <;> rfl

theorem isPfx_cons (a : Char) (as b : Str) :
    isPfx (a :: as) b = true ↔ ∃ bs, b = a :: bs ∧ isPfx as bs = true := by
  cases b with
  | nil => simp [isPfx]
  | cons x xs =>
    simp only [isPfx, Bool.and_eq_true, beq_iff_eq]
    constructor
    · rintro ⟨rfl, h⟩; exact ⟨xs, rfl, h⟩
    · rintro ⟨bs, heq, h⟩
      cases heq
      exact ⟨rfl, h⟩

/-- A prefix can be split off: `isPfx p s → s = p ++ t`. -/
theorem isPfx_exists {p s : Str} (h : isPfx p s = true) : ∃ t, s = p ++ t := by
  induction p generalizing s with
  | nil => exact ⟨s, rfl⟩
  | cons a as ih =>
    rcases (isPfx_cons a as s).1 h with ⟨bs, rfl, h2⟩
    rcases ih h2 with ⟨t, rfl⟩
    exact ⟨t, rfl⟩

theorem isPfx_append (p t : Str) : isPfx p (p ++ t) = true := by
  induction p with
  | nil => cases t <;> rfl
  | cons a as ih => simp [isPfx, ih]

theorem isPfx_length_le {p s : Str} (h : isPfx p s = true) : p.length ≤ s.length := by
  rcases isPfx_exists h with ⟨t, rfl⟩
  simp

theorem List.drop_length_append (p t : Str) : List.drop p.length (p ++ t) = t := by
  simp

/-- Fuel irrelevance: any fuel at least the length of the input gives the same
result. -/
theorem pyReplaceFuel_fuel_irrel (pat val : Str) :
    ∀ f1 f2 s, s.length ≤ f1 → s.length ≤ f2 →
      pyReplaceFuel pat val f1 s = pyReplaceFuel pat val f2 s := by
  intro f1
  induction f1 with
  | zero =>
    intro f2 s h1 _
    have : s = [] := List.eq_nil_of_length_eq_zero (Nat.le_zero.1 h1)
    subst this
    cases f2 <;> rfl
  | succ g ih =>
    intro f2 s h1 h2
    cases s with
    | nil => cases f2 <;> rfl
    | cons c cs =>
      cases f2 with
      | zero => exact absurd h2 (by simp)
      | succ g2 =>
        simp only [pyReplaceFuel]
        by_cases hc : isPfx pat (c :: cs) ∧ pat ≠ []
        · rw [if_pos hc, if_pos hc]
          congr 1
          have hlen : (List.drop pat.length (c :: cs)).length ≤ cs.length := by
            rcases hc with ⟨hp, hne⟩
            have hpl : 1 ≤ pat.length := by
              cases pat with
              | nil => exact absurd rfl hne
              | cons _ _ => simp
            simp only [List.length_drop, List.length_cons]
            omega
          exact ih g2 _ (le_trans hlen (Nat.succ_le_succ_iff.1 h1))
            (le_trans hlen (Nat.succ_le_succ_iff.1 h2))
        · rw [if_neg hc, if_neg hc]
          congr 1
          exact ih g2 cs (Nat.succ_le_succ_iff.1 h1) (Nat.succ_le_succ_iff.1 h2)

theorem pyReplace_nil (pat val : Str) : pyReplace pat val [] = [] := rfl

/-- Unfolding `pyReplace` at a matching position. -/
theorem pyReplace_pos {pat : Str} (val : Str) {c : Char} {cs : Str}
    (hne : pat ≠ []) (hp : isPfx pat (c :: cs) = true) :
    pyReplace pat val (c :: cs) =
      val ++ pyReplace pat val (List.drop pat.length (c :: cs)) := by
  have h1 : 1 ≤ pat.length := by
    cases pat with
    | nil => exact absurd rfl hne
    | cons _ _ => simp
  show pyReplaceFuel pat val (cs.length + 1) (c :: cs) = _
  rw [pyReplaceFuel, if_pos ⟨hp, hne⟩]
  congr 1
  apply pyReplaceFuel_fuel_irrel
  · simp only [List.length_drop, List.length_cons]
    omega
  · exact le_refl _

/-- Unfolding `pyReplace` at a non-matching position. -/
theorem pyReplace_neg {pat : Str} (val : Str) {c : Char} {cs : Str}
    (hp : ¬ isPfx pat (c :: cs) = true) :
    pyReplace pat val (c :: cs) = c :: pyReplace pat val cs := by
  show pyReplaceFuel pat val (cs.length + 1) (c :: cs) = _
  rw [pyReplaceFuel, if_neg (by intro h; exact hp h.1)]
  rfl


theorem dictLookup_insert_self (d : List (Str × Str)) (k v : Str) :
    dictLookup (dictInsert d k v) k = some v := by
  induction d with
  | nil => simp [dictInsert, dictLookup]
  | cons kv rest ih =>
    obtain ⟨k', v'⟩ := kv
    by_cases h : k' = k <;> simp [dictInsert, dictLookup, h, ih]

theorem take_append_len (A B : Str) (n : Nat) :
    (A ++ B).take (A.length + n) = A ++ B.take n := by
  induction A with
  | nil => simp
  | cons a as ih =>
    have : (a :: as).length + n = (as.length + n) + 1 := by simp; omega
    rw [this]
    simp only [List.cons_append, List.take_succ_cons, ih]

theorem isPfx_takeWhile (p : Char → Bool) :
    ∀ q l, isPfx q l = true → (∀ c ∈ q, p c = true) → isPfx q (l.takeWhile p) = true := by
  intro q
  induction q with
  | nil => intro l _ _; exact isPfx_nil _
  | cons a as ih =>
    intro l h hall
    rcases (isPfx_cons a as l).1 h with ⟨bs, rfl, h2⟩
    have hpa : p a = true := hall a (by simp)
    rw [List.takeWhile_cons, if_pos hpa]
    exact (isPfx_cons a as _).2 ⟨_, rfl, ih bs h2 (fun c hc => hall c (by simp [hc]))⟩

/-- A path ending in `".tpl"` has a base name of the shape `u ++ ".tpl"`. -/
theorem endsWith_basename {p : Str} (h : endsWith tplSuffix p = true) :
    ∃ u, basename p = u ++ tplSuffix := by
  have h1 : isPfx tplSuffix.reverse (p.reverse.takeWhile (fun c => c ≠ '/')) = true := by
    apply isPfx_takeWhile _ _ _ h
    intro c hc
    simp [tplSuffix] at hc
    rcases hc with rfl | rfl | rfl | rfl <;> decide
  rcases isPfx_exists h1 with ⟨w, hw⟩
  refine ⟨w.reverse, ?_⟩
  rw [basename, hw]
  simp [tplSuffix]

theorem tplSuffix_take (u : Str) :
    (u ++ tplSuffix).take ((u ++ tplSuffix).length - 4) = u := by
  have h2 : (u ++ tplSuffix).length - 4 = u.length + 0 := by simp [tplSuffix]
  rw [h2, take_append_len]
  simp

/-- The source's "slice four characters off the combined path" equals the
spec's "strip the suffix from the base name, then prepend the directory". -/
theorem combined_take (td u : Str) :
    (td ++ '/' :: (u ++ tplSuffix)).take ((td ++ '/' :: (u ++ tplSuffix)).length - 4) =
      td ++ '/' :: u := by
  have h1 : td ++ '/' :: (u ++ tplSuffix) = (td ++ '/' :: u) ++ tplSuffix := by simp
  have h2 : ((td ++ '/' :: u) ++ tplSuffix).length - 4 = (td ++ '/' :: u).length + 0 := by
    simp [tplSuffix]
    omega
  rw [h1, h2, take_append_len]
  simp

/-! ## Claims -/

/-- **C4.** For every template path and target directory, `render` derives the
output file name from the base name of the template path: if the path ends
with `".tpl"` the suffix is stripped, otherwise the base name is used
unchanged; the substituted content is written to `{target_dir}/{derived_name}`
and that path is returned. -/
theorem claim_C4 (p td : Str) (vars : List (Str × Str)) (s : Sys) (content : Str)
    (h : dictLookup s.files p = some content) :
    generate_starter_code p td vars s =
      .ok (td ++ '/' :: specOutputName p,
           s.writeFile (td ++ '/' :: specOutputName p) (substitute vars content)) := by
  simp only [generate_starter_code, h, specOutputName]
  by_cases he : endsWith tplSuffix p = true
  · rcases endsWith_basename he with ⟨u, hu⟩
    simp only [he, if_true, hu, combined_take, tplSuffix_take]
  · simp [he]

/-- **C4 witness**: a concrete `.tpl` template renders to the suffix-stripped
name inside the target directory. -/
theorem claim_C4_witness :
    generate_starter_code "t/foo.py.tpl".toList "/out".toList
        [("CHALLENGE_DAY".toList, "7".toList)]
        ⟨[("t/foo.py.tpl".toList, "day [[CHALLENGE_DAY]]".toList)], [], [], [], []⟩ =
      .ok ("/out".toList ++ '/' :: specOutputName "t/foo.py.tpl".toList,
           Sys.writeFile ⟨[("t/foo.py.tpl".toList, "day [[CHALLENGE_DAY]]".toList)], [], [], [], []⟩
             ("/out".toList ++ '/' :: specOutputName "t/foo.py.tpl".toList)
             (substitute [("CHALLENGE_DAY".toList, "7".toList)] "day [[CHALLENGE_DAY]]".toList)) :=
  claim_C4 _ _ _ _ _ (by decide)

/-- **C5.** Registry load returns an empty mapping (not a failure) when the
persisted store file does not exist, and fails — here: with `pickle`'s
uncaught deserialization exception terminating the run — when the file exists
but cannot be deserialized. -/
theorem claim_C5 (decReg : Str → Option (List (Str × Str))) (s : Sys) :
    (dictLookup s.files SAVED_TEMPLATES_FILE_PATH = none →
      load_saved_templates decReg s = .ok [])
    ∧ (∀ c, dictLookup s.files SAVED_TEMPLATES_FILE_PATH = some c → decReg c = none →
      load_saved_templates decReg s = .error (.exn .unpicklingError, s)) := by
  constructor
  · intro h
    simp [load_saved_templates, h]
  · intro c h1 h2
    simp [load_saved_templates, h1, h2]

/-- **C5 witness**: a missing store file loads as the empty mapping; an
undecodable store file is a failure. -/
theorem claim_C5_witness :
    load_saved_templates (fun _ => none) ⟨[], [], [], [], []⟩ = .ok []
    ∧ load_saved_templates (fun _ => none)
        ⟨[(SAVED_TEMPLATES_FILE_PATH, "junk".toList)], [], [], [], []⟩ =
      .error (.exn .unpicklingError, ⟨[(SAVED_TEMPLATES_FILE_PATH, "junk".toList)], [], [], [], []⟩) :=
  ⟨(claim_C5 (fun _ => none) _).1 (by decide),
   (claim_C5 (fun _ => none) _).2 "junk".toList (by decide) rfl⟩

/-- **C6.** An `add` whose template path does not reference an existing file
fails with `INVALID_TEMPLATE_PATH`; the existence check precedes any
mutation, and both the in-memory mapping and the whole observable state
(including the persisted registry file) are returned unchanged. -/
theorem claim_C6 (encReg : List (Str × Str) → Str) (saved : List (Str × Str))
    (lang tf : Str) (s : Sys) (h : s.pathExists tf = false) :
    add_template encReg saved lang tf s = .error (.exit .INVALID_TEMPLATE_PATH, saved, s) := by
  simp [add_template, h]

/-- **C6 witness**: adding a nonexistent path on an empty file system fails
and leaves everything untouched. -/
theorem claim_C6_witness :
    add_template (fun _ => []) [("py".toList, "old.tpl".toList)] "Rust".toList
        "nope.tpl".toList ⟨[], [], [], [], []⟩ =
      .error (.exit .INVALID_TEMPLATE_PATH, [("py".toList, "old.tpl".toList)],
              ⟨[], [], [], [], []⟩) :=
  claim_C6 _ _ _ _ _ (by decide)

/-- **C1 (amended).** If the local input file for (day, year) already exists,
`create_input_file` leaves the file system (files *and* directories)
unchanged — but it still issues exactly one network request first: the source
downloads the input (line 79) before checking for the local file (line 83). -/
theorem claim_C1 (net : Str → Str → Nat × Str) (cfg : Config) (day year : Nat) (s : Sys)
    (h : s.pathExists (inputFilePath cfg day year) = true) :
    (resultSys (create_input_file net cfg day year s)).files = s.files
    ∧ (resultSys (create_input_file net cfg day year s)).dirs = s.dirs
    ∧ (resultSys (create_input_file net cfg day year s)).requests
        = s.requests ++ [requestUrl year day] := by
  have h' : Sys.pathExists { s with requests := s.requests ++ [requestUrl year day] }
      (inputFilePath cfg day year) = true := by
    simpa [Sys.pathExists] using h
  by_cases h2 : (net cfg.session_cookie (requestUrl year day)).1 ≠ 200
  · simp [create_input_file, get_challenge_input, h2, pushStderr, resultSys]
  · simp [create_input_file, get_challenge_input, h2, resultSys, h']

/-- **C1 witness**: with the input file for day 5, 2023 already present and a
200 response, the run leaves files and directories as they were and logs
exactly the one fetch. -/
theorem claim_C1_witness :
    (resultSys (create_input_file (fun _ _ => (200, "body".toList)) ⟨"in".toList, "c".toList⟩
        5 2023 ⟨[(inputFilePath ⟨"in".toList, "c".toList⟩ 5 2023, "old".toList)], [], [], [], []⟩)).files
      = [(inputFilePath ⟨"in".toList, "c".toList⟩ 5 2023, "old".toList)]
    ∧ (resultSys (create_input_file (fun _ _ => (200, "body".toList)) ⟨"in".toList, "c".toList⟩
        5 2023 ⟨[(inputFilePath ⟨"in".toList, "c".toList⟩ 5 2023, "old".toList)], [], [], [], []⟩)).dirs
      = []
    ∧ (resultSys (create_input_file (fun _ _ => (200, "body".toList)) ⟨"in".toList, "c".toList⟩
        5 2023 ⟨[(inputFilePath ⟨"in".toList, "c".toList⟩ 5 2023, "old".toList)], [], [], [], []⟩)).requests
      = [] ++ [requestUrl 2023 5] :=
  claim_C1 _ _ _ _ _ (by decide)

/-- **C1 counterexample** to the claim as stated: even though the input file
for (day 5, year 2023) exists locally, the run *does* issue a network request
(the request log grows), refuting "issues no network request". -/
theorem claim_C1_counterexample :
    Sys.pathExists ⟨[(inputFilePath ⟨"in".toList, "c".toList⟩ 5 2023, "old".toList)], [], [], [], []⟩
        (inputFilePath ⟨"in".toList, "c".toList⟩ 5 2023) = true
    ∧ (resultSys (create_input_file (fun _ _ => (200, "body".toList)) ⟨"in".toList, "c".toList⟩
        5 2023 ⟨[(inputFilePath ⟨"in".toList, "c".toList⟩ 5 2023, "old".toList)], [], [], [], []⟩)).requests
      = [requestUrl 2023 5]
    ∧ ([requestUrl 2023 5] : List Str) ≠ [] := by
  refine ⟨by decide, by decide, by decide⟩

/-- **C7.** A non-200 response makes `generate` abort with
`BAD_AOC_REQUEST`: the diagnostic on stderr carries the status code and the
request URL, the exit code (2) is non-zero and distinct from the other two
error codes, and neither a file nor a directory is created. -/
theorem claim_C7 (net : Str → Str → Nat × Str) (cfg : Config) (saved : List (Str × Str))
    (args : GenArgs) (s : Sys) (tp : Str)
    (h1 : dictLookup saved (lower args.language) = some tp)
    (h2 : (net cfg.session_cookie (requestUrl args.year args.day)).1 ≠ 200) :
    generate_challenge net cfg saved args s =
      .error (.exit .BAD_AOC_REQUEST,
        { s with requests := s.requests ++ [requestUrl args.year args.day],
                 stderr := s.stderr ++ [fetchErrorMsg
                   (net cfg.session_cookie (requestUrl args.year args.day)).1
                   (requestUrl args.year args.day)] })
    ∧ (resultSys (generate_challenge net cfg saved args s)).files = s.files
    ∧ (resultSys (generate_challenge net cfg saved args s)).dirs = s.dirs
    ∧ Failure.code (.exit .BAD_AOC_REQUEST) = 2 ∧ (2 : Nat) ≠ 0
    ∧ Failure.code (.exit .TEMPLATE_NOT_FOUND) ≠ 2
    ∧ Failure.code (.exit .INVALID_TEMPLATE_PATH) ≠ 2 := by
  have heq : generate_challenge net cfg saved args s =
      .error (.exit .BAD_AOC_REQUEST,
        { s with requests := s.requests ++ [requestUrl args.year args.day],
                 stderr := s.stderr ++ [fetchErrorMsg
                   (net cfg.session_cookie (requestUrl args.year args.day)).1
                   (requestUrl args.year args.day)] }) := by
    simp [generate_challenge, h1, create_input_file, get_challenge_input, h2, pushStderr]
  refine ⟨heq, ?_, ?_, rfl, by decide, by decide, by decide⟩
  · rw [heq]; rfl
  · rw [heq]; rfl


/-- **C7 witness**: a 404 on a registered language aborts with exit code 2,
records the diagnostic, and creates no file. -/
theorem claim_C7_witness :
    generate_challenge (fun _ _ => (404, [])) ⟨"in".toList, "ck".toList⟩
        [("py".toList, "t.py".toList)] ⟨1, "py".toList, "/o".toList, 2020⟩
        ⟨[], [], [], [], []⟩ =
      .error (.exit .BAD_AOC_REQUEST,
        ⟨[], [], [requestUrl 2020 1], [fetchErrorMsg 404 (requestUrl 2020 1)], []⟩)
    ∧ (resultSys (generate_challenge (fun _ _ => (404, [])) ⟨"in".toList, "ck".toList⟩
        [("py".toList, "t.py".toList)] ⟨1, "py".toList, "/o".toList, 2020⟩
        ⟨[], [], [], [], []⟩)).files = []
    ∧ (resultSys (generate_challenge (fun _ _ => (404, [])) ⟨"in".toList, "ck".toList⟩
        [("py".toList, "t.py".toList)] ⟨1, "py".toList, "/o".toList, 2020⟩
        ⟨[], [], [], [], []⟩)).dirs = []
    ∧ Failure.code (.exit .BAD_AOC_REQUEST) = 2 ∧ (2 : Nat) ≠ 0
    ∧ Failure.code (.exit .TEMPLATE_NOT_FOUND) ≠ 2
    ∧ Failure.code (.exit .INVALID_TEMPLATE_PATH) ≠ 2 :=
  claim_C7 _ _ _ _ _ "t.py".toList (by decide) (by decide)

/-- **C8.** Language names are case-insensitive: a successful `add` stores its
entry under the lowercased language name, and `generate` behaves identically
for two language arguments that agree up to case, provided the (lowercased)
lookup succeeds. -/
theorem claim_C8 :
    (∀ (encReg : List (Str × Str) → Str) (saved : List (Str × Str)) (lang tf : Str)
        (s : Sys) (r : List (Str × Str) × Sys),
      add_template encReg saved lang tf s = .ok r →
        dictLookup r.1 (lower lang) = some tf)
    ∧ (∀ (net : Str → Str → Nat × Str) (cfg : Config) (saved : List (Str × Str))
        (args : GenArgs) (L2 : Str) (s : Sys),
      lower args.language = lower L2 →
      (dictLookup saved (lower args.language)).isSome = true →
        generate_challenge net cfg saved args s =
          generate_challenge net cfg saved { args with language := L2 } s) := by
  constructor
  · intro encReg saved lang tf s r hr
    by_cases hp : s.pathExists tf = true
    · simp [add_template, hp] at hr
      subst hr
      exact dictLookup_insert_self saved (lower lang) tf
    · simp [add_template, hp] at hr
  · intro net cfg saved args L2 s hL hsome
    cases hlk : dictLookup saved (lower args.language) with
    | none => rw [hlk] at hsome; simp at hsome
    | some tp =>
      have hlk2 : dictLookup saved (lower L2) = some tp := hL ▸ hlk
      simp only [generate_challenge, hlk, hlk2]

/-- **C8 witness**: `add` with language `"Py"` is retrievable under `"py"`,
and `generate` with `"Python"` runs exactly as with the stored key
`"python"`. -/
theorem claim_C8_witness :
    dictLookup (dictInsert [] (lower "Py".toList) "t".toList, Sys.writeFile
        ⟨[("t".toList, "x".toList)], [], [], [], []⟩ SAVED_TEMPLATES_FILE_PATH []).1
        (lower "Py".toList) = some "t".toList
    ∧ generate_challenge (fun _ _ => (200, "b".toList)) ⟨"in".toList, "ck".toList⟩
        [("python".toList, "sol.py.tpl".toList)] ⟨1, "Python".toList, "/out".toList, 2023⟩
        ⟨[], [], [], [], []⟩
      = generate_challenge (fun _ _ => (200, "b".toList)) ⟨"in".toList, "ck".toList⟩
        [("python".toList, "sol.py.tpl".toList)]
        { (⟨1, "Python".toList, "/out".toList, 2023⟩ : GenArgs) with language := "python".toList }
        ⟨[], [], [], [], []⟩ :=
  ⟨claim_C8.1 (fun _ => []) [] "Py".toList "t".toList ⟨[("t".toList, "x".toList)], [], [], [], []⟩
      _ rfl,
   claim_C8.2 _ _ _ _ "python".toList _ (by decide) (by decide)⟩

/-- **C10 (amended).** When the first command-line argument is neither
`"generate"` nor `"add"` — and the startup phase succeeds (the config file
exists and parses, and the saved-templates file loads) — `main` performs
neither operation: the observable state is returned exactly as it was (no
file written, no request issued, no registry mutation, no stderr output) and
the process exits with code 0. -/
theorem claim_C10 (net : Str → Str → Nat × Str) (decCfg : Str → Option Config)
    (decReg : Str → Option (List (Str × Str))) (encReg : List (Str × Str) → Str)
    (parseGen : List Str → Option GenArgs) (parseAdd : List Str → Option AddArgs)
    (argv : List Str) (s : Sys) (m cfgText : Str) (cfg : Config)
    (hm : argv.get? 1 = some m)
    (hg : m ≠ "generate".toList) (ha : m ≠ "add".toList)
    (hc : dictLookup s.files CONFIG_FILE_PATH = some cfgText)
    (hcd : decCfg cfgText = some cfg)
    (hr : ∃ reg, load_saved_templates decReg s = .ok reg) :
    bootstrapper_main net decCfg decReg encReg parseGen parseAdd argv s = .ok s
    ∧ runCode (bootstrapper_main net decCfg decReg encReg parseGen parseAdd argv s) = 0 := by
  rcases hr with ⟨reg, hreg⟩
  have heq : bootstrapper_main net decCfg decReg encReg parseGen parseAdd argv s = .ok s := by
    simp only [bootstrapper_main, hc, hcd, hm, hreg]
    rw [if_neg hg, if_neg ha]
  exact ⟨heq, by rw [heq]; rfl⟩

/-- **C10 witness**: a well-formed environment with mode `"frobnicate"`
leaves the state untouched and exits 0. -/
theorem claim_C10_witness :
    bootstrapper_main (fun _ _ => (200, [])) (fun _ => some ⟨"in".toList, "ck".toList⟩)
        (fun _ => some []) (fun _ => []) (fun _ => none) (fun _ => none)
        ["prog".toList, "frobnicate".toList]
        ⟨[(CONFIG_FILE_PATH, "cfg".toList)], [], [], [], []⟩ =
      .ok ⟨[(CONFIG_FILE_PATH, "cfg".toList)], [], [], [], []⟩
    ∧ runCode (bootstrapper_main (fun _ _ => (200, [])) (fun _ => some ⟨"in".toList, "ck".toList⟩)
        (fun _ => some []) (fun _ => []) (fun _ => none) (fun _ => none)
        ["prog".toList, "frobnicate".toList]
        ⟨[(CONFIG_FILE_PATH, "cfg".toList)], [], [], [], []⟩) = 0 :=
  claim_C10 _ _ _ _ _ _ _ _ _ "cfg".toList ⟨"in".toList, "ck".toList⟩ rfl (by decide) (by decide)
    (by decide) rfl ⟨[], rfl⟩

/-- **C10 counterexample** to the claim as stated: with the config file
missing, an invocation whose mode is `"frobnicate"` still performs neither
operation but terminates with the interpreter's failure code 1, not 0. -/
theorem claim_C10_counterexample :
    bootstrapper_main (fun _ _ => (200, [])) (fun _ => none) (fun _ => none) (fun _ => [])
        (fun _ => none) (fun _ => none) ["prog".toList, "frobnicate".toList]
        ⟨[], [], [], [], []⟩ =
      .error (.exn .fileNotFoundError, ⟨[], [], [], [], []⟩)
    ∧ runCode (bootstrapper_main (fun _ _ => (200, [])) (fun _ => none) (fun _ => none)
        (fun _ => []) (fun _ => none) (fun _ => none) ["prog".toList, "frobnicate".toList]
        ⟨[], [], [], [], []⟩) = 1
    ∧ (1 : Nat) ≠ 0
    ∧ "frobnicate".toList ≠ "generate".toList
    ∧ "frobnicate".toList ≠ "add".toList := by
  refine ⟨rfl, rfl, by decide, by decide, by decide⟩

/-! ## Lemmas about counting and token structure (for C2, C3, C9) -/

theorem countOccs_single (a c : Char) (l : Str) :
    countOccs [a] (c :: l) = (if a = c then 1 else 0) + countOccs [a] l := by
  by_cases h : a = c <;> simp [countOccs, isPfx, isPfx_nil, h]

theorem countOccs_single_append (a : Char) (u w : Str) :
    countOccs [a] (u ++ w) = countOccs [a] u + countOccs [a] w := by
  induction u with
  | nil => simp [countOccs]
  | cons c u' ih =>
    rw [List.cons_append, countOccs_single, ih, countOccs_single]
    omega

theorem countOccs_notMem {a : Char} {l : Str} (h : a ∉ l) : countOccs [a] l = 0 := by
  induction l with
  | nil => rfl
  | cons c l' ih =>
    have h1 : a ≠ c := fun he => h (he ▸ List.mem_cons_self c l')
    rw [countOccs_single, if_neg h1, ih (fun hm => h (List.mem_cons_of_mem c hm))]

theorem le_countOccs_append (p : Str) : ∀ u w, countOccs p w ≤ countOccs p (u ++ w) := by
  intro u
  induction u with
  | nil => intro w; exact le_refl _
  | cons c u' ih =>
    intro w
    rw [List.cons_append, countOccs]
    exact le_trans (ih w) (Nat.le_add_left _ _)

theorem isPfx_of_isPfx_of_length_le :
    ∀ s p q : Str, isPfx p s = true → isPfx q s = true → p.length ≤ q.length →
      isPfx p q = true := by
  intro s
  induction s with
  | nil =>
    intro p q hp _ _
    cases p with
    | nil => exact isPfx_nil q
    | cons a as => simp [isPfx] at hp
  | cons c cs ih =>
    intro p q hp hq hl
    cases p with
    | nil => exact isPfx_nil q
    | cons a as =>
      rcases (isPfx_cons a as _).1 hp with ⟨bs, heqp, hp2⟩
      injection heqp with h1 h2
      cases q with
      | nil => simp at hl
      | cons b qs =>
        rcases (isPfx_cons b qs _).1 hq with ⟨bs2, heqq, hq2⟩
        injection heqq with h3 h4
        rw [← h2] at hp2
        rw [← h4] at hq2
        refine (isPfx_cons a as (b :: qs)).2
          ⟨qs, ?_, ih as qs hp2 hq2 (Nat.succ_le_succ_iff.1 hl)⟩
        rw [← h1, ← h3]

theorem noBrackets_cons {c : Char} {l : Str} (h : noBrackets (c :: l)) :
    c ≠ '[' ∧ c ≠ ']' ∧ noBrackets l := by
  refine ⟨fun he => h.1 (he ▸ List.mem_cons_self c l),
          fun he => h.2 (he ▸ List.mem_cons_self c l),
          fun hm => h.1 (List.mem_cons_of_mem c hm),
          fun hm => h.2 (List.mem_cons_of_mem c hm)⟩

theorem append_delim_eq :
    ∀ A B : Str, noBrackets A → noBrackets B →
      isPfx (A ++ [']', ']']) (B ++ [']', ']']) = true → A = B := by
  intro A
  induction A with
  | nil =>
    intro B hA hB h
    cases B with
    | nil => rfl
    | cons b B' =>
      rcases (isPfx_cons ']' [']'] _).1 h with ⟨bs, heq, _⟩
      injection heq with h1 _
      exact absurd h1 (noBrackets_cons hB).2.1
  | cons a A' ih =>
    intro B hA hB h
    cases B with
    | nil =>
      rcases (isPfx_cons a (A' ++ [']', ']']) _).1 h with ⟨bs, heq, _⟩
      injection heq with h1 _
      exact absurd h1.symm (noBrackets_cons hA).2.1
    | cons b B' =>
      rcases (isPfx_cons a (A' ++ [']', ']']) _).1 h with ⟨bs, heq, h2⟩
      injection heq with h1 h3
      subst h1
      rw [← h3] at h2
      rw [ih B' (noBrackets_cons hA).2.2 (noBrackets_cons hB).2.2 h2]

/-- Two well-formed tokens matching at the same position have the same key. -/
theorem tok_injOn {A B s : Str} (hA : noBrackets A) (hB : noBrackets B)
    (h1 : isPfx (tok A) s = true) (h2 : isPfx (tok B) s = true) : A = B := by
  rcases Nat.le_total (tok A).length (tok B).length with hl | hl
  · have h3 : isPfx (tok A) (tok B) = true := isPfx_of_isPfx_of_length_le s _ _ h1 h2 hl
    rw [tok, tok] at h3
    rcases (isPfx_cons _ _ _).1 h3 with ⟨b1, he1, h4⟩
    injection he1 with _ he1'
    rw [← he1'] at h4
    rcases (isPfx_cons _ _ _).1 h4 with ⟨b2, he2, h5⟩
    injection he2 with _ he2'
    rw [← he2'] at h5
    exact append_delim_eq A B hA hB h5
  · have h3 : isPfx (tok B) (tok A) = true := isPfx_of_isPfx_of_length_le s _ _ h2 h1 hl
    rw [tok, tok] at h3
    rcases (isPfx_cons _ _ _).1 h3 with ⟨b1, he1, h4⟩
    injection he1 with _ he1'
    rw [← he1'] at h4
    rcases (isPfx_cons _ _ _).1 h4 with ⟨b2, he2, h5⟩
    injection he2 with _ he2'
    rw [← he2'] at h5
    exact (append_delim_eq B A hB hA h5).symm

/-- Every token starts with an opening bracket. -/
theorem tok_head (K : Str) : isPfx ['['] (tok K) = true := by
  simp [tok, isPfx]

theorem length_tok (K : Str) : (tok K).length = K.length + 4 := by
  simp [tok]

/-- Replacement with the empty pattern is the identity (the guard `pat ≠ []`
in `pyReplaceFuel` never fires). -/
theorem pyReplace_nil_pat (v : Str) : ∀ s, pyReplace [] v s = s := by
  intro s
  induction s with
  | nil => rfl
  | cons c cs ih =>
    show pyReplaceFuel [] v (cs.length + 1) (c :: cs) = c :: cs
    rw [pyReplaceFuel, if_neg (by simp)]
    exact congrArg (c :: ·) ih

/-- Scanning a stretch of text with no opening bracket cannot match a pattern
that starts with one: the stretch is copied verbatim. -/
theorem skip_clean {pat : Str} (v : Str) (hpat : isPfx ['['] pat = true) :
    ∀ u x, (∀ c ∈ u, c ≠ '[') → pyReplace pat v (u ++ x) = u ++ pyReplace pat v x := by
  rcases (isPfx_cons '[' [] pat).1 hpat with ⟨rest, rfl, -⟩
  intro u
  induction u with
  | nil => intro x _; rfl
  | cons c u' ih =>
    intro x hu
    have hc : c ≠ '[' := hu c (List.mem_cons_self c u')
    have hnm : ¬ isPfx ('[' :: rest) (c :: (u' ++ x)) = true := by
      intro h
      rcases (isPfx_cons '[' rest _).1 h with ⟨bs, heq, -⟩
      injection heq with h1 _
      exact hc h1
    rw [List.cons_append, pyReplace_neg v hnm, ih x (fun d hd => hu d (List.mem_cons_of_mem c hd))]
    rfl

/-- Counting version of `skip_clean`: a bracket-free stretch holds no
occurrence of a pattern that starts with an opening bracket. -/
theorem count_skip_clean {pat : Str} (hpat : isPfx ['['] pat = true) :
    ∀ u w, (∀ c ∈ u, c ≠ '[') → countOccs pat (u ++ w) = countOccs pat w := by
  rcases (isPfx_cons '[' [] pat).1 hpat with ⟨rest, rfl, -⟩
  intro u
  induction u with
  | nil => intro w _; rfl
  | cons c u' ih =>
    intro w hu
    have hc : c ≠ '[' := hu c (List.mem_cons_self c u')
    have hnm : ¬ isPfx ('[' :: rest) (c :: (u' ++ w)) = true := by
      intro h
      rcases (isPfx_cons '[' rest _).1 h with ⟨bs, heq, -⟩
      injection heq with h1 _
      exact hc h1
    rw [List.cons_append, countOccs, if_neg hnm, ih w (fun d hd => hu d (List.mem_cons_of_mem c hd))]
    omega

/-- No token can match one position inside the opening `"[["` of a well-formed
token: the character after that position is never `'['`. -/
theorem isPfx_tok_second (B : Str) {A : Str} (hA : noBrackets A) (t : Str) :
    ¬ isPfx (tok B) ('[' :: ((A ++ [']', ']']) ++ t)) = true := by
  intro h
  rw [tok] at h
  rcases (isPfx_cons _ _ _).1 h with ⟨bs, heq, h2⟩
  injection heq with _ heq'
  rw [← heq'] at h2
  rcases (isPfx_cons _ _ _).1 h2 with ⟨bs2, heq2, -⟩
  cases A with
  | nil =>
    rw [List.nil_append] at heq2
    injection heq2 with h4 _
    exact absurd h4 (by decide)
  | cons a A' =>
    have heq3 : a :: ((A' ++ [']', ']']) ++ t) = '[' :: bs2 := by simpa using heq2
    injection heq3 with h4 _
    exact (noBrackets_cons hA).1 h4

/-- A token whose key has no brackets is scanned over verbatim by a
replacement pass for any *other* pattern that does not match at its start. -/
theorem pyReplace_foreign_tok (B : Str) {A : Str} (v t : Str) (hA : noBrackets A)
    (hnm : ¬ isPfx (tok B) (tok A ++ t) = true) :
    pyReplace (tok B) v (tok A ++ t) = tok A ++ pyReplace (tok B) v t := by
  have e1 : tok A ++ t = '[' :: ('[' :: ((A ++ [']', ']']) ++ t)) := by simp [tok]
  rw [e1] at hnm ⊢
  rw [pyReplace_neg v hnm]
  rw [pyReplace_neg v (isPfx_tok_second B hA t)]
  rw [skip_clean v (tok_head B) (A ++ [']', ']']) t ?hu]
  case hu =>
    intro c hc
    rcases List.mem_append.1 hc with h | h
    · exact fun he => hA.1 (he ▸ h)
    · intro he
      rw [he] at h
      simp at h
  rfl

/-- Unfolding a replacement pass at its own token. -/
theorem pyReplace_tok_self (A v t : Str) :
    pyReplace (tok A) v (tok A ++ t) = v ++ pyReplace (tok A) v t := by
  have e1 : tok A ++ t = '[' :: ('[' :: ((A ++ [']', ']']) ++ t)) := by simp [tok]
  have hp : isPfx (tok A) (tok A ++ t) = true := isPfx_append _ _
  rw [e1] at hp ⊢
  rw [pyReplace_pos v (by simp [tok]) hp]
  congr 1
  rw [← e1, List.drop_length_append]

/-- Occurrences of a token are unaffected by a preceding *different* token. -/
theorem countOccs_tok_foreign {A K : Str} (hA : noBrackets A) (hK : noBrackets K)
    (hAK : A ≠ K) (t : Str) :
    countOccs (tok K) (tok A ++ t) = countOccs (tok K) t := by
  have h0 : ¬ isPfx (tok K) (tok A ++ t) = true := by
    intro h
    exact hAK (tok_injOn hA hK (isPfx_append _ _) h)
  have e1 : tok A ++ t = '[' :: ('[' :: ((A ++ [']', ']']) ++ t)) := by simp [tok]
  rw [e1] at h0 ⊢
  rw [countOccs, if_neg h0, countOccs, if_neg (isPfx_tok_second K hA t)]
  rw [count_skip_clean (tok_head K) (A ++ [']', ']']) t ?hu]
  case hu =>
    intro c hc
    rcases List.mem_append.1 hc with h | h
    · exact fun he => hA.1 (he ▸ h)
    · intro he
      rw [he] at h
      simp at h
  omega

/-- A token at the head contributes exactly one occurrence of itself. -/
theorem countOccs_tok_self {K : Str} (hK : noBrackets K) (w : Str) :
    countOccs (tok K) (tok K ++ w) = 1 + countOccs (tok K) w := by
  have e1 : tok K ++ w = '[' :: ('[' :: ((K ++ [']', ']']) ++ w)) := by simp [tok]
  have hp : isPfx (tok K) (tok K ++ w) = true := isPfx_append _ _
  rw [e1] at hp ⊢
  rw [countOccs, if_pos hp, countOccs, if_neg (isPfx_tok_second K hK w)]
  rw [count_skip_clean (tok_head K) (K ++ [']', ']']) w ?hu]
  case hu =>
    intro c hc
    rcases List.mem_append.1 hc with h | h
    · exact fun he => hK.1 (he ▸ h)
    · intro he
      rw [he] at h
      simp at h
  omega

/-- Characters that avoid a key and both brackets avoid the whole token. -/
theorem notMem_tok {v K : Str} (hvb : noBrackets v) (hvK : ∀ c ∈ v, c ∉ K) :
    ∀ c ∈ v, c ∉ tok K := by
  intro c hc hmem
  have h1 : c ≠ '[' := fun h => hvb.1 (h ▸ hc)
  have h2 : c ≠ ']' := fun h => hvb.2 (h ▸ hc)
  have h3 : c ∉ K := hvK c hc
  rw [tok] at hmem
  rcases List.mem_cons.1 hmem with h | hmem2
  · exact h1 h
  rcases List.mem_cons.1 hmem2 with h | hmem3
  · exact h1 h
  rcases List.mem_append.1 hmem3 with h | h
  · exact h3 h
  · rcases List.mem_cons.1 h with h' | h'
    · exact h2 h'
    · simp at h'
      exact h2 h'

/-- Prefix reflection: if the replacement value is non-empty and shares no
character with `q`, then any `q` that is a prefix of the *output* of a
replacement pass was already a prefix of its input. -/
theorem isPfx_reflect (pat v : Str) (hv : v ≠ []) :
    ∀ n (x q : Str), x.length ≤ n → q ≠ [] → (∀ c ∈ v, c ∉ q) →
      isPfx q (pyReplace pat v x) = true → isPfx q x = true := by
  intro n
  induction n with
  | zero =>
    intro x q hx hq _ hpfx
    have hxnil : x = [] := List.eq_nil_of_length_eq_zero (Nat.le_zero.1 hx)
    subst hxnil
    rw [pyReplace_nil] at hpfx
    cases q with
    | nil => exact absurd rfl hq
    | cons a as => simp [isPfx] at hpfx
  | succ m ih =>
    intro x q hx hq hvq hpfx
    cases x with
    | nil =>
      rw [pyReplace_nil] at hpfx
      cases q with
      | nil => exact absurd rfl hq
      | cons a as => simp [isPfx] at hpfx
    | cons c cs =>
      by_cases hpat : pat = []
      · rw [hpat, pyReplace_nil_pat] at hpfx
        exact hpfx
      by_cases hm : isPfx pat (c :: cs) = true
      · rw [pyReplace_pos v hpat hm] at hpfx
        cases v with
        | nil => exact absurd rfl hv
        | cons d v' =>
          cases q with
          | nil => exact absurd rfl hq
          | cons e q' =>
            rcases (isPfx_cons e q' _).1 hpfx with ⟨bs, heq, -⟩
            have heq2 : d :: (v' ++ pyReplace pat (d :: v') (List.drop pat.length (c :: cs))) = e :: bs := by
              simpa using heq
            injection heq2 with hde _
            have hmm : d ∈ e :: q' := by rw [hde]; exact List.mem_cons_self e q'
            exact absurd hmm (hvq d (List.mem_cons_self d v'))
      · rw [pyReplace_neg v hm] at hpfx
        cases q with
        | nil => exact absurd rfl hq
        | cons e q' =>
          rcases (isPfx_cons e q' _).1 hpfx with ⟨bs, heq, h2⟩
          injection heq with hce hbs
          by_cases hq' : q' = []
          · subst hq'
            refine (isPfx_cons e [] (c :: cs)).2 ⟨cs, ?_, isPfx_nil cs⟩
            rw [hce]
          · rw [← hbs] at h2
            have h3 : isPfx q' cs = true :=
              ih cs q' (Nat.succ_le_succ_iff.1 hx) hq'
                (fun d hd hmem => hvq d hd (List.mem_cons_of_mem e hmem)) h2
            refine (isPfx_cons e q' (c :: cs)).2 ⟨cs, ?_, h3⟩
            rw [hce]

theorem open_bracket_mem_tok (K : Str) : '[' ∈ tok K := by
  rw [tok]
  exact List.mem_cons_self _ _

theorem mem_tok_of_mem_tail {c : Char} {K : Str} (h : c ∈ '[' :: (K ++ [']', ']'])) :
    c ∈ tok K := by
  rw [tok]
  exact List.mem_cons_of_mem _ h

theorem length_tail_of_tok_append {K t : Str} {c : Char} {cs : Str} {m : Nat}
    (ht : c :: cs = tok K ++ t) (hs : (c :: cs).length ≤ m + 1) : t.length ≤ m := by
  have h1 := congrArg List.length ht
  simp only [List.length_cons, List.length_append, length_tok] at h1
  simp only [List.length_cons] at hs
  omega

/-- A replacement pass for `[[K]]` whose value is non-empty and avoids the
characters of the token removes every occurrence of `[[K]]`. -/
theorem countOccs_replace_self_zero {K v : Str} (hv : v ≠ [])
    (hvK : ∀ c ∈ v, c ∉ tok K) :
    ∀ n s, s.length ≤ n → countOccs (tok K) (pyReplace (tok K) v s) = 0 := by
  intro n
  induction n with
  | zero =>
    intro s hs
    have : s = [] := List.eq_nil_of_length_eq_zero (Nat.le_zero.1 hs)
    subst this
    rw [pyReplace_nil]
    rfl
  | succ m ih =>
    intro s hs
    cases s with
    | nil => rw [pyReplace_nil]; rfl
    | cons c cs =>
      by_cases hm : isPfx (tok K) (c :: cs) = true
      · rcases isPfx_exists hm with ⟨t, ht⟩
        have hlen : t.length ≤ m := length_tail_of_tok_append ht hs
        rw [ht, pyReplace_tok_self]
        rw [count_skip_clean (tok_head K) v _
          (fun d hd he => (hvK d hd) (he ▸ open_bracket_mem_tok K))]
        exact ih t hlen
      · have hcs : cs.length ≤ m := by
          simp only [List.length_cons] at hs
          omega
        rw [pyReplace_neg v hm, countOccs, if_neg ?ind, ih cs hcs]
        case ind =>
          intro h
          rw [tok] at h
          rcases (isPfx_cons _ _ _).1 h with ⟨bs, heq, h2⟩
          injection heq with hc1 hbs
          rw [← hbs] at h2
          have h3 := isPfx_reflect (tok K) v hv cs.length cs _ (le_refl _) (by simp)
            (fun d hd hmem => (hvK d hd) (mem_tok_of_mem_tail hmem)) h2
          apply hm
          rw [tok]
          exact (isPfx_cons _ _ _).2 ⟨cs, by rw [hc1], h3⟩

/-- A replacement pass for `[[K]]` by a value inserts, for every occurrence of
`[[K]]`, a fresh copy of each character of the value; occurrences of a
character `d` that does not appear in the token are exactly the original ones
plus those contributed by the insertions. -/
theorem countOccs_replace_value {K : Str} {d : Char} (v : Str) (hK : noBrackets K)
    (hd : d ∉ tok K) :
    ∀ n s, s.length ≤ n →
      countOccs [d] (pyReplace (tok K) v s) =
        countOccs [d] s + countOccs [d] v * countOccs (tok K) s := by
  intro n
  induction n with
  | zero =>
    intro s hs
    have : s = [] := List.eq_nil_of_length_eq_zero (Nat.le_zero.1 hs)
    subst this
    rw [pyReplace_nil]
    rfl
  | succ m ih =>
    intro s hs
    cases s with
    | nil => rw [pyReplace_nil]; rfl
    | cons c cs =>
      by_cases hm : isPfx (tok K) (c :: cs) = true
      · rcases isPfx_exists hm with ⟨t, ht⟩
        have hlen : t.length ≤ m := length_tail_of_tok_append ht hs
        rw [ht, pyReplace_tok_self, countOccs_single_append, ih t hlen,
            countOccs_single_append, countOccs_notMem hd, countOccs_tok_self hK,
            Nat.mul_add, Nat.mul_one]
        omega
      · have hcs : cs.length ≤ m := by
          simp only [List.length_cons] at hs
          omega
        rw [pyReplace_neg v hm, countOccs_single, ih cs hcs, countOccs_single,
            countOccs, if_neg hm]
        simp only [Nat.zero_add]
        omega

/-- A replacement pass for a *different* bracket-free key can only preserve or
create occurrences of `[[K]]`, never destroy one. -/
theorem countOccs_replace_foreign_le {A K : Str} (hA : noBrackets A) (hK : noBrackets K)
    (hAK : A ≠ K) (v : Str) :
    ∀ n s, s.length ≤ n →
      countOccs (tok K) s ≤ countOccs (tok K) (pyReplace (tok A) v s) := by
  intro n
  induction n with
  | zero =>
    intro s hs
    have : s = [] := List.eq_nil_of_length_eq_zero (Nat.le_zero.1 hs)
    subst this
    rw [pyReplace_nil]
  | succ m ih =>
    intro s hs
    cases s with
    | nil => rw [pyReplace_nil]
    | cons c cs =>
      by_cases hma : isPfx (tok A) (c :: cs) = true
      · rcases isPfx_exists hma with ⟨t, ht⟩
        have hlen : t.length ≤ m := length_tail_of_tok_append ht hs
        rw [ht, pyReplace_tok_self, countOccs_tok_foreign hA hK hAK]
        exact le_trans (ih t hlen) (le_countOccs_append (tok K) v _)
      · by_cases hmk : isPfx (tok K) (c :: cs) = true
        · rcases isPfx_exists hmk with ⟨t, ht⟩
          have hlen : t.length ≤ m := length_tail_of_tok_append ht hs
          rw [ht] at hma ⊢
          rw [pyReplace_foreign_tok A v t hK hma, countOccs_tok_self hK,
              countOccs_tok_self hK]
          exact Nat.add_le_add_left (ih t hlen) 1
        · have hcs : cs.length ≤ m := by
            simp only [List.length_cons] at hs
            omega
          rw [pyReplace_neg v hma, countOccs, if_neg hmk, countOccs]
          have h1 := ih cs hcs
          omega

/-- Two replacement passes for distinct bracket-free keys commute when both
values are non-empty and neither value shares a character with the other
key's token. -/
theorem pyReplace_comm {A B vA vB : Str} (hA : noBrackets A) (hB : noBrackets B)
    (hAB : A ≠ B) (hvA : vA ≠ []) (hvB : vB ≠ [])
    (hvAB : ∀ c ∈ vA, c ∉ tok B) (hvBA : ∀ c ∈ vB, c ∉ tok A) :
    ∀ n s, s.length ≤ n →
      pyReplace (tok A) vA (pyReplace (tok B) vB s) =
        pyReplace (tok B) vB (pyReplace (tok A) vA s) := by
  intro n
  induction n with
  | zero =>
    intro s hs
    have : s = [] := List.eq_nil_of_length_eq_zero (Nat.le_zero.1 hs)
    subst this
    simp [pyReplace_nil]
  | succ m ih =>
    intro s hs
    cases s with
    | nil => simp [pyReplace_nil]
    | cons c cs =>
      by_cases hma : isPfx (tok A) (c :: cs) = true
      · by_cases hmb : isPfx (tok B) (c :: cs) = true
        · exact absurd (tok_injOn hA hB hma hmb) hAB
        · rcases isPfx_exists hma with ⟨t, ht⟩
          have hlen : t.length ≤ m := length_tail_of_tok_append ht hs
          rw [ht] at hmb ⊢
          rw [pyReplace_foreign_tok B vB t hA hmb, pyReplace_tok_self,
              pyReplace_tok_self,
              skip_clean vB (tok_head B) vA _
                (fun e he hf => (hvAB e he) (hf ▸ open_bracket_mem_tok B)),
              ih t hlen]
      · by_cases hmb : isPfx (tok B) (c :: cs) = true
        · rcases isPfx_exists hmb with ⟨t, ht⟩
          have hlen : t.length ≤ m := length_tail_of_tok_append ht hs
          rw [ht] at hma ⊢
          rw [pyReplace_foreign_tok A vA t hB hma, pyReplace_tok_self,
              pyReplace_tok_self,
              skip_clean vA (tok_head A) vB _
                (fun e he hf => (hvBA e he) (hf ▸ open_bracket_mem_tok A)),
              ih t hlen]
        · have hcs : cs.length ≤ m := by
            simp only [List.length_cons] at hs
            omega
          have hnma : ¬ isPfx (tok A) (c :: pyReplace (tok B) vB cs) = true := by
            intro h
            rw [tok] at h
            rcases (isPfx_cons _ _ _).1 h with ⟨bs, heq, h2⟩
            injection heq with hc1 hbs
            rw [← hbs] at h2
            have h3 := isPfx_reflect (tok B) vB hvB cs.length cs _ (le_refl _) (by simp)
              (fun e he hmem => (hvBA e he) (mem_tok_of_mem_tail hmem)) h2
            apply hma
            rw [tok]
            exact (isPfx_cons _ _ _).2 ⟨cs, by rw [hc1], h3⟩
          have hnmb : ¬ isPfx (tok B) (c :: pyReplace (tok A) vA cs) = true := by
            intro h
            rw [tok] at h
            rcases (isPfx_cons _ _ _).1 h with ⟨bs, heq, h2⟩
            injection heq with hc1 hbs
            rw [← hbs] at h2
            have h3 := isPfx_reflect (tok A) vA hvA cs.length cs _ (le_refl _) (by simp)
              (fun e he hmem => (hvAB e he) (mem_tok_of_mem_tail hmem)) h2
            apply hmb
            rw [tok]
            exact (isPfx_cons _ _ _).2 ⟨cs, by rw [hc1], h3⟩
          rw [pyReplace_neg vB hmb, pyReplace_neg vA hnma, pyReplace_neg vA hma,
              pyReplace_neg vB hnmb, ih cs hcs]

/-- The whole substitution loop never destroys a token of a bracket-free key
that is distinct from every (bracket-free) mapping key. -/
theorem substitute_foreign_le {K : Str} (hK : noBrackets K) :
    ∀ (vars : List (Str × Str)) (s : Str),
      (∀ kv ∈ vars, noBrackets kv.1 ∧ kv.1 ≠ K) →
      countOccs (tok K) s ≤ countOccs (tok K) (substitute vars s) := by
  intro vars
  induction vars with
  | nil => intro s _; exact le_refl _
  | cons kv rest ih =>
    intro s hvars
    have hkv := hvars kv (List.mem_cons_self kv rest)
    exact le_trans
      (countOccs_replace_foreign_le hkv.1 hK hkv.2 kv.2 s.length s (le_refl _))
      (ih (substVar s kv) (fun kv2 h2 => hvars kv2 (List.mem_cons_of_mem kv h2)))

theorem goodVars_of_cons {x : Str × Str} {l : List (Str × Str)} (h : goodVars (x :: l)) :
    goodVars l := by
  obtain ⟨hp, hm⟩ := h
  refine ⟨(List.pairwise_cons.1 hp).2, ?_⟩
  intro kv hkv
  obtain ⟨h1, h2, h3, h4⟩ := hm kv (List.mem_cons_of_mem x hkv)
  exact ⟨h1, h2, h3, fun kv2 hkv2 => h4 kv2 (List.mem_cons_of_mem x hkv2)⟩

theorem goodVars_perm {l1 l2 : List (Str × Str)} (hp : List.Perm l1 l2)
    (h : goodVars l1) : goodVars l2 := by
  obtain ⟨hpw, hm⟩ := h
  constructor
  · exact (hp.pairwise_iff (fun hab => fun heq => hab heq.symm)).1 hpw
  · intro kv hkv
    obtain ⟨h1, h2, h3, h4⟩ := hm kv (hp.mem_iff.2 hkv)
    exact ⟨h1, h2, h3, fun kv2 hkv2 => h4 kv2 (hp.mem_iff.2 hkv2)⟩

/-- Two substitution passes taken from a `goodVars` mapping commute. -/
theorem substVar_comm {x y : Str × Str} (hx1 : noBrackets x.1) (hy1 : noBrackets y.1)
    (hxy : x.1 ≠ y.1) (hx2 : x.2 ≠ []) (hy2 : y.2 ≠ [])
    (hx2b : noBrackets x.2) (hy2b : noBrackets y.2)
    (hx2y : ∀ c ∈ x.2, c ∉ y.1) (hy2x : ∀ c ∈ y.2, c ∉ x.1) (s : Str) :
    substVar (substVar s x) y = substVar (substVar s y) x :=
  pyReplace_comm hy1 hx1 (fun he => hxy he.symm) hy2 hx2
    (notMem_tok hy2b hy2x) (notMem_tok hx2b hx2y) s.length s (le_refl _)

/-- Substitution is invariant under permuting a `goodVars` mapping. -/
theorem substitute_perm : ∀ {l1 l2 : List (Str × Str)}, List.Perm l1 l2 →
    goodVars l1 → ∀ s, substitute l1 s = substitute l2 s := by
  intro l1 l2 hp
  induction hp with
  | nil => intro _ s; rfl
  | cons x p ih =>
    intro hg s
    exact ih (goodVars_of_cons hg) (substVar s x)
  | swap x y l =>
    intro hg s
    obtain ⟨hpw, hm⟩ := hg
    have hyx : y.1 ≠ x.1 := (List.pairwise_cons.1 hpw).1 x (List.mem_cons_self x l)
    obtain ⟨hy1, hy2, hy2b, hy4⟩ := hm y (List.mem_cons_self y (x :: l))
    obtain ⟨hx1, hx2, hx2b, hx4⟩ :=
      hm x (List.mem_cons_of_mem y (List.mem_cons_self x l))
    have hcomm : substVar (substVar s y) x = substVar (substVar s x) y :=
      substVar_comm hy1 hx1 hyx hy2 hx2 hy2b hx2b
        (fun c hc => hy4 x (List.mem_cons_of_mem y (List.mem_cons_self x l)) c hc)
        (fun c hc => hx4 y (List.mem_cons_self y (x :: l)) c hc) s
    show substitute l (substVar (substVar s y) x) = substitute l (substVar (substVar s x) y)
    rw [hcomm]
  | trans p1 p2 ih1 ih2 =>
    intro hg s
    exact (ih1 hg s).trans (ih2 (goodVars_perm p1 hg) s)

/-- **C2.** With the mapping `{X: "5"}`, rendering a template containing
exactly `N` occurrences of `[[X]]` yields an output with zero occurrences of
`[[X]]` and with a `"5"` at each of the `N` replaced positions (its count of
`'5'` grows by exactly `N`). -/
theorem claim_C2 (s : Str) (N : Nat) (h : countOccs (tok ['X']) s = N) :
    countOccs (tok ['X']) (substitute [(['X'], ['5'])] s) = 0
    ∧ countOccs ['5'] (substitute [(['X'], ['5'])] s) = countOccs ['5'] s + N := by
  have hsub : substitute [(['X'], ['5'])] s = pyReplace (tok ['X']) ['5'] s := rfl
  constructor
  · rw [hsub]
    exact countOccs_replace_self_zero (v := ['5']) (by decide) (by decide)
      s.length s (le_refl _)
  · rw [hsub,
      countOccs_replace_value ['5'] (by decide) (by decide) s.length s (le_refl _), h]
    have h1 : countOccs ['5'] ['5'] = 1 := by decide
    rw [h1, Nat.one_mul]

/-- **C2 witness**: a template with two `[[X]]` tokens renders with none left
and two more `'5'` characters. -/
theorem claim_C2_witness :
    countOccs (tok ['X']) "a[[X]]b[[X]]".toList = 2
    ∧ (countOccs (tok ['X']) (substitute [(['X'], ['5'])] "a[[X]]b[[X]]".toList) = 0
      ∧ countOccs ['5'] (substitute [(['X'], ['5'])] "a[[X]]b[[X]]".toList)
          = countOccs ['5'] "a[[X]]b[[X]]".toList + 2) :=
  ⟨by decide, claim_C2 "a[[X]]b[[X]]".toList 2 (by decide)⟩

/-- **C3 (amended).** For mappings whose keys are bracket-free, every token
`[[K]]` of a bracket-free key `K` that is not among the mapping keys survives
rendering: the output contains at least as many occurrences of `[[K]]` as the
template (replacement can additionally *create* such tokens, so "exactly" does
not hold, and for bracket-containing keys even survival fails — see the
counterexample).  Rendering is a total function, so no error is raised for
unknown placeholders or unused variables. -/
theorem claim_C3 (K : Str) (vars : List (Str × Str)) (s : Str)
    (hK : noBrackets K)
    (hvars : ∀ kv ∈ vars, noBrackets kv.1 ∧ kv.1 ≠ K) :
    countOccs (tok K) s ≤ countOccs (tok K) (substitute vars s) :=
  substitute_foreign_le hK vars s hvars

/-- **C3 witness**: `[[K]]` survives a pass for the unrelated key `A`. -/
theorem claim_C3_witness :
    noBrackets "K".toList
    ∧ countOccs (tok "K".toList) "[[K]] [[A]]".toList
        ≤ countOccs (tok "K".toList)
            (substitute [("A".toList, "5".toList)] "[[K]] [[A]]".toList) :=
  ⟨by decide, claim_C3 "K".toList [("A".toList, "5".toList)] "[[K]] [[A]]".toList
    (by decide) (by decide)⟩

/-- **C3 counterexample** to the claim as stated (over *every* variable
mapping): with the bracket-containing mapping key `"K]][[K"`, the template
`"[[K]][[K]]"` holds two `[[K]]` tokens and `K` is not a mapping key, yet the
rendered output `"x"` holds none — the tokens are not left verbatim. -/
theorem claim_C3_counterexample :
    ("K".toList ∉ ["K]][[K".toList])
    ∧ countOccs (tok "K".toList) "[[K]][[K]]".toList = 2
    ∧ substitute [("K]][[K".toList, "x".toList)] "[[K]][[K]]".toList = "x".toList
    ∧ countOccs (tok "K".toList)
        (substitute [("K]][[K".toList, "x".toList)] "[[K]][[K]]".toList) = 0 := by
  refine ⟨by decide, by decide, by decide, by decide⟩

/-- **C9 (amended).** Substitution is order-independent for mappings whose
keys are pairwise distinct and bracket-free — provided additionally that every
value is non-empty, bracket-free, and shares no character with any key (the
counterexample shows the claim fails without the conditions on values). -/
theorem claim_C9 (vars1 vars2 : List (Str × Str)) (s : Str)
    (hperm : List.Perm vars1 vars2) (hgood : goodVars vars1) :
    substitute vars1 s = substitute vars2 s :=
  substitute_perm hperm hgood s

/-- **C9 witness**: a two-key mapping with digit values renders identically in
either order. -/
theorem claim_C9_witness :
    goodVars [("A".toList, "1".toList), ("B".toList, "2".toList)]
    ∧ substitute [("A".toList, "1".toList), ("B".toList, "2".toList)] "[[A]]+[[B]]".toList
      = substitute [("B".toList, "2".toList), ("A".toList, "1".toList)] "[[A]]+[[B]]".toList :=
  ⟨by decide,
   claim_C9 _ _ "[[A]]+[[B]]".toList (List.Perm.swap _ _ _) (by decide)⟩

/-- **C9 counterexample** to the claim as stated: the keys `"A"` and `"B"` are
distinct, bracket-free, and neither occurs in the other, yet replacing `[[A]]`
by the empty string in `"[[[[A]]B]]"` splices the surrounding text into a new
`[[B]]` token, so the two replacement orders give different outputs
(`"y"` versus `"[[B]]"`). -/
theorem claim_C9_counterexample :
    List.Perm [("A".toList, "".toList), ("B".toList, "y".toList)]
      [("B".toList, "y".toList), ("A".toList, "".toList)]
    ∧ "A".toList ≠ "B".toList
    ∧ noBrackets "A".toList ∧ noBrackets "B".toList
    ∧ countOccs "A".toList "B".toList = 0 ∧ countOccs "B".toList "A".toList = 0
    ∧ substitute [("A".toList, "".toList), ("B".toList, "y".toList)] "[[[[A]]B]]".toList
      ≠ substitute [("B".toList, "y".toList), ("A".toList, "".toList)] "[[[[A]]B]]".toList :=
  ⟨List.Perm.swap _ _ _, by decide, by decide, by decide, by decide, by decide, by decide⟩
